import Mathlib

/-!
Shallow embedding of the entity/component management subsystem of
`EngineUtilities` (`src/EngineUtilities/include/ECS/ECS.h`), together with
theorems settling the specification claims about it.

Modelling conventions:
* `std::unordered_map` is modelled as an association list; only lookup by
  exact key matters (the spec promises no ordering).
* `std::unordered_set` is modelled as a duplicate-free list.
* Machine integers (`uint32_t`, `size_t`) are modelled as `Nat`; every value
  that occurs stays far below the wrap-around bound (`MAX_ENTITIES = 5000`),
  so modular reduction never fires.
* The three `assert` sites in the source (capacity in
  `EntityManager::CreateEntity`, duplicate in `ComponentArray::InsertData`,
  missing in `ComponentArray::RemoveData`) halt the program before any
  mutation when their condition fails; they are modelled as `Except` failures
  of the corresponding error kind with the state returned unchanged.
* `ComponentManager::GetComponentArray` uses `componentArrays[typeID]`, whose
  `operator[]` inserts a default (null) `shared_ptr` when the key is absent;
  the subsequent cast and dereference of that null handle is undefined
  behaviour.  The fabricated entry is modelled as `none` stored in the map and
  the dereference as the distinguished outcome `NullDeref`.
-/

namespace EU

/-! ## Definitions -/

namespace ECS

/-- Entity identifier (`using Entity = uint32_t;`). -/
abbrev Entity := Nat

/-- `constexpr Entity MAX_ENTITIES = 5000;` -/
def MAX_ENTITIES : Nat := 5000

/-- Outcomes of the fallible operations.  `CapacityExceeded`,
`DuplicateComponent` and `MissingComponent` are the three assertion failures
of the source; `NullDeref` marks the undefined behaviour reached when the
null handle fabricated by `componentArrays[typeID]` is dereferenced. -/
inductive ECSError where
  | CapacityExceeded
  | DuplicateComponent
  | MissingComponent
  | NullDeref
  deriving DecidableEq, Repr

end ECS

/-! Association-list model of `std::unordered_map` (lookup, assign via
`operator[]`, erase). -/

namespace Assoc

/-- `map.find(k)`: the value stored under `k`, if any. -/
def find? {κ α : Type} [DecidableEq κ] : List (κ × α) → κ → Option α
  | [], _ => none
  | (k₁, x) :: l, k => if k₁ = k then some x else find? l k

/-- Remove every binding of key `k` (`map.erase(k)`). -/
def eraseKey {κ α : Type} [DecidableEq κ] : List (κ × α) → κ → List (κ × α)
  | [], _ => []
  | (k₁, x) :: l, k => if k₁ = k then eraseKey l k else (k₁, x) :: eraseKey l k

/-- `map[k] = x`: store `x` under `k`, replacing any previous binding. -/
def set {κ α : Type} [DecidableEq κ] (l : List (κ × α)) (k : κ) (x : α) :
    List (κ × α) :=
  (k, x) :: eraseKey l k

end Assoc

/-! Duplicate-free-list model of `std::unordered_set`. -/

namespace ListSet

/-- `set.insert(a)`: a no-op when `a` is already present. -/
def insert {α : Type} [DecidableEq α] (l : List α) (a : α) : List α :=
  if a ∈ l then l else a :: l

/-- `set.erase(a)`: remove `a`. -/
def erase {α : Type} [DecidableEq α] : List α → α → List α
  | [], _ => []
  | x :: l, a => if x = a then erase l a else x :: erase l a

end ListSet

namespace ECS

/-! ### `ComponentArray<T>` -/

/-- `ComponentArray<T>`: `std::unordered_map<Entity, T> components`. -/
def ComponentArray (V : Type) : Type := List (Entity × V)

instance (V : Type) [DecidableEq V] : DecidableEq (ComponentArray V) :=
  inferInstanceAs (DecidableEq (List (Entity × V)))

/-- `ComponentArray::InsertData`: asserts the entity is absent
(`"Component added twice."`), then `components[entity] = component`.  The
assertion failure is the `DuplicateComponent` error. -/
def ComponentArray.InsertData {V : Type} (ca : ComponentArray V) (e : Entity)
    (v : V) : Except ECSError (ComponentArray V) :=
  if (Assoc.find? ca e).isSome then .error .DuplicateComponent
  else .ok (Assoc.set ca e v)

/-- `ComponentArray::RemoveData`: asserts the entity is present
(`"Removing non-existent component."`), then `components.erase(entity)`.  The
assertion failure is the `MissingComponent` error. -/
def ComponentArray.RemoveData {V : Type} (ca : ComponentArray V) (e : Entity) :
    Except ECSError (ComponentArray V) :=
  if (Assoc.find? ca e).isSome then .ok (Assoc.eraseKey ca e)
  else .error .MissingComponent

/-- `ComponentArray::GetData`: the stored value, or `none` for the source's
`nullptr` (defined absence). -/
def ComponentArray.GetData {V : Type} (ca : ComponentArray V) (e : Entity) :
    Option V :=
  Assoc.find? ca e

/-- `ComponentArray::HasComponent`: `components.find(entity) != end()`. -/
def ComponentArray.HasComponent {V : Type} (ca : ComponentArray V)
    (e : Entity) : Bool :=
  (Assoc.find? ca e).isSome

/-! ### `ComponentManager`

`std::unordered_map<size_t, std::shared_ptr<void>> componentArrays`, keyed by
the type identifier `ComponentTypeID::GetID<T>()`.  The stored handle is
`some arr` for a real array and `none` for a null `shared_ptr` (the value
fabricated by `operator[]` on a miss).  The manager is modelled per payload
type `V`; an operation for component type `T` passes `T`'s registry
identifier as `tid`. -/

structure ComponentManager (V : Type) where
  componentArrays : List (Nat × Option (ComponentArray V))
  deriving DecidableEq

/-- `ComponentManager::GetComponentArray` (private): reads
`componentArrays[typeID]`; when `typeID` is absent, `operator[]` first
inserts a default (null) handle, which is then returned.  Returns the handle
and the possibly-grown map. -/
def ComponentManager.GetComponentArray {V : Type} (cm : ComponentManager V)
    (tid : Nat) : Option (ComponentArray V) × ComponentManager V :=
  match Assoc.find? cm.componentArrays tid with
  | some h => (h, cm)
  | none => (none, ⟨Assoc.set cm.componentArrays tid none⟩)

/-- `ComponentManager::RegisterComponent`:
`componentArrays[typeID] = std::make_shared<ComponentArray<T>>()` —
unconditionally stores a fresh empty array under `tid`. -/
def ComponentManager.RegisterComponent {V : Type} (cm : ComponentManager V)
    (tid : Nat) : ComponentManager V :=
  ⟨Assoc.set cm.componentArrays tid (some ([] : ComponentArray V))⟩

/-- `ComponentManager::AddComponent`:
`GetComponentArray<T>()->InsertData(entity, component)`.  Dereferencing a
null handle is the `NullDeref` outcome. -/
def ComponentManager.AddComponent {V : Type} (cm : ComponentManager V)
    (tid : Nat) (e : Entity) (v : V) :
    Except ECSError Unit × ComponentManager V :=
  match cm.GetComponentArray tid with
  | (some ca, cm₁) =>
    match ca.InsertData e v with
    | .ok ca₁ => (.ok (), ⟨Assoc.set cm₁.componentArrays tid (some ca₁)⟩)
    | .error err => (.error err, cm₁)
  | (none, cm₁) => (.error .NullDeref, cm₁)

/-- `ComponentManager::RemoveComponent`:
`GetComponentArray<T>()->RemoveData(entity)`. -/
def ComponentManager.RemoveComponent {V : Type} (cm : ComponentManager V)
    (tid : Nat) (e : Entity) : Except ECSError Unit × ComponentManager V :=
  match cm.GetComponentArray tid with
  | (some ca, cm₁) =>
    match ca.RemoveData e with
    | .ok ca₁ => (.ok (), ⟨Assoc.set cm₁.componentArrays tid (some ca₁)⟩)
    | .error err => (.error err, cm₁)
  | (none, cm₁) => (.error .NullDeref, cm₁)

/-- `ComponentManager::GetComponent`:
`GetComponentArray<T>()->GetData(entity)`. -/
def ComponentManager.GetComponent {V : Type} (cm : ComponentManager V)
    (tid : Nat) (e : Entity) :
    Except ECSError (Option V) × ComponentManager V :=
  match cm.GetComponentArray tid with
  | (some ca, cm₁) => (.ok (ca.GetData e), cm₁)
  | (none, cm₁) => (.error .NullDeref, cm₁)

/-- `ComponentManager::HasComponent`:
`GetComponentArray<T>()->HasComponent(entity)`. -/
def ComponentManager.HasComponent {V : Type} (cm : ComponentManager V)
    (tid : Nat) (e : Entity) : Except ECSError Bool × ComponentManager V :=
  match cm.GetComponentArray tid with
  | (some ca, cm₁) => (.ok (ca.HasComponent e), cm₁)
  | (none, cm₁) => (.error .NullDeref, cm₁)

/-! ### `EntityManager` -/

/-- `EntityManager`: `Entity nextEntity = 0` and
`std::unordered_set<Entity> livingEntities`. -/
structure EntityManager where
  nextEntity : Nat
  livingEntities : List Entity
  deriving DecidableEq

/-- The freshly constructed `EntityManager`. -/
def emFresh : EntityManager := ⟨0, []⟩

/-- `EntityManager::CreateEntity`: asserts `nextEntity < MAX_ENTITIES`
(`"Max entities reached"`, the `CapacityExceeded` error), then
`Entity id = nextEntity++; livingEntities.insert(id); return id;`. -/
def EntityManager.CreateEntity (em : EntityManager) :
    Except ECSError (Entity × EntityManager) :=
  if em.nextEntity < MAX_ENTITIES then
    .ok (em.nextEntity,
      ⟨em.nextEntity + 1, ListSet.insert em.livingEntities em.nextEntity⟩)
  else .error .CapacityExceeded

/-- `EntityManager::DestroyEntity`: `livingEntities.erase(entity)`. -/
def EntityManager.DestroyEntity (em : EntityManager) (e : Entity) :
    EntityManager :=
  ⟨em.nextEntity, ListSet.erase em.livingEntities e⟩

/-- `EntityManager::IsAlive`:
`livingEntities.find(entity) != livingEntities.end()`. -/
def EntityManager.IsAlive (em : EntityManager) (e : Entity) : Bool :=
  decide (e ∈ em.livingEntities)

/-- One `CreateEntity` call viewed as a state transformer: on the
`CapacityExceeded` assertion failure the state is unchanged. -/
def emCreateStep (em : EntityManager) : EntityManager :=
  match em.CreateEntity with
  | .ok (_, em₁) => em₁
  | .error _ => em

/-- State of a fresh `EntityManager` after `n` `CreateEntity` calls. -/
def emAfterCreates : Nat → EntityManager
  | 0 => emFresh
  | n + 1 => emCreateStep (emAfterCreates n)

/-- The operations a consumer can run against an `EntityManager`. -/
inductive EMOp where
  | create : EMOp
  | destroy : Entity → EMOp

/-- Apply one operation. -/
def emStep (em : EntityManager) : EMOp → EntityManager
  | .create => emCreateStep em
  | .destroy e => em.DestroyEntity e

/-- Run a sequence of operations from a given state. -/
def emRunFrom (em : EntityManager) (ops : List EMOp) : EntityManager :=
  ops.foldl emStep em

/-- Run a sequence of operations from the fresh `EntityManager`; its results
are exactly the reachable states. -/
def emRun (ops : List EMOp) : EntityManager :=
  emRunFrom emFresh ops

/-- The `EntityManager` invariant: the alive set is a subset of
`[0, nextEntity)`. -/
def EntityManager.Inv (em : EntityManager) : Prop :=
  ∀ e ∈ em.livingEntities, e < em.nextEntity

/-! ### `ComponentTypeID`

`GetID<T>()` is `static size_t id = nextID++; return id;` per template
instantiation, against the process-wide `static size_t nextID = 0`.  The
runtime state of all those statics is one registry: the counter and the
identifiers already handed out, keyed by a type token (`String` stands in
for the C++ type). -/

structure TypeRegistry where
  nextID : Nat
  ids : List (String × Nat)
  deriving DecidableEq

/-- Registry state at process start (`size_t ComponentTypeID::nextID = 0;`,
no local static initialized yet). -/
def regFresh : TypeRegistry := ⟨0, []⟩

/-- `ComponentTypeID::GetID<T>()`: on the first call for `T` the local
static runs `nextID++` and keeps the old counter value; later calls return
the remembered value. -/
def TypeRegistry.GetID (r : TypeRegistry) (t : String) : Nat × TypeRegistry :=
  match Assoc.find? r.ids t with
  | some i => (i, r)
  | none => (r.nextID, ⟨r.nextID + 1, Assoc.set r.ids t r.nextID⟩)

/-- Run a sequence of `GetID` calls from a given registry state. -/
def regRunFrom (r : TypeRegistry) (ts : List String) : TypeRegistry :=
  ts.foldl (fun r t => (r.GetID t).2) r

/-- Registry state after a sequence of `GetID` calls from process start. -/
def regRun (ts : List String) : TypeRegistry :=
  regRunFrom regFresh ts

/-- Well-formedness of a registry state: the handed-out identifiers are
pairwise distinct, bound by the counter, and belong to pairwise distinct
types. -/
def TypeRegistry.WF (r : TypeRegistry) : Prop :=
  r.ids.Pairwise (fun p q => p.1 ≠ q.1 ∧ p.2 ≠ q.2) ∧
  ∀ p ∈ r.ids, p.2 < r.nextID

/-! ### `Coordinator` -/

/-- `Coordinator`: owns one `EntityManager` and one `ComponentManager`. -/
structure Coordinator (V : Type) where
  entityManager : EntityManager
  componentManager : ComponentManager V
  deriving DecidableEq

/-- `Coordinator::DestroyEntity`: calls `entityManager.DestroyEntity(entity)`
only; the source leaves the component manager untouched (its comment notes
component cleanup could be added there, but none is). -/
def Coordinator.DestroyEntity {V : Type} (c : Coordinator V) (e : Entity) :
    Coordinator V :=
  ⟨c.entityManager.DestroyEntity e, c.componentManager⟩

/-- `Coordinator::CreateEntity`: `entityManager.CreateEntity()`. -/
def Coordinator.CreateEntity {V : Type} (c : Coordinator V) :
    Except ECSError (Entity × Coordinator V) :=
  match c.entityManager.CreateEntity with
  | .ok (e, em) => .ok (e, ⟨em, c.componentManager⟩)
  | .error err => .error err

/-- `Coordinator::RegisterComponent`: forwards to the component manager. -/
def Coordinator.RegisterComponent {V : Type} (c : Coordinator V)
    (tid : Nat) : Coordinator V :=
  ⟨c.entityManager, c.componentManager.RegisterComponent tid⟩

/-- `Coordinator::AddComponent`: forwards to the component manager. -/
def Coordinator.AddComponent {V : Type} (c : Coordinator V) (tid : Nat)
    (e : Entity) (v : V) : Except ECSError Unit × Coordinator V :=
  let r := c.componentManager.AddComponent tid e v
  (r.1, ⟨c.entityManager, r.2⟩)

/-- `Coordinator::RemoveComponent`: forwards to the component manager. -/
def Coordinator.RemoveComponent {V : Type} (c : Coordinator V) (tid : Nat)
    (e : Entity) : Except ECSError Unit × Coordinator V :=
  let r := c.componentManager.RemoveComponent tid e
  (r.1, ⟨c.entityManager, r.2⟩)

/-- `Coordinator::GetComponent`: forwards to the component manager. -/
def Coordinator.GetComponent {V : Type} (c : Coordinator V) (tid : Nat)
    (e : Entity) : Except ECSError (Option V) × Coordinator V :=
  let r := c.componentManager.GetComponent tid e
  (r.1, ⟨c.entityManager, r.2⟩)

/-- `Coordinator::HasComponent`: forwards to the component manager. -/
def Coordinator.HasComponent {V : Type} (c : Coordinator V) (tid : Nat)
    (e : Entity) : Except ECSError Bool × Coordinator V :=
  let r := c.componentManager.HasComponent tid e
  (r.1, ⟨c.entityManager, r.2⟩)

end ECS

/-! ## Theorems -/

namespace Assoc

variable {κ α : Type} [DecidableEq κ]

@[simp]
theorem find?_nil (k : κ) : find? ([] : List (κ × α)) k = none := rfl

@[simp]
theorem find?_cons (k₁ k : κ) (x : α) (l : List (κ × α)) :
    find? ((k₁, x) :: l) k = if k₁ = k then some x else find? l k := rfl

@[simp]
theorem eraseKey_nil (k : κ) : eraseKey ([] : List (κ × α)) k = [] := rfl

@[simp]
theorem eraseKey_cons (k₁ k : κ) (x : α) (l : List (κ × α)) :
    eraseKey ((k₁, x) :: l) k =
      if k₁ = k then eraseKey l k else (k₁, x) :: eraseKey l k := rfl

@[simp]
theorem find?_eraseKey_self (l : List (κ × α)) (k : κ) :
    find? (eraseKey l k) k = none := by
  induction l with
  | nil => rfl
  | cons p l ih =>
    obtain ⟨k₁, x⟩ := p
    by_cases h : k₁ = k <;> simp [h, ih]

theorem find?_eraseKey_ne (l : List (κ × α)) (k k' : κ) (h : k' ≠ k) :
    find? (eraseKey l k) k' = find? l k' := by
  induction l with
  | nil => rfl
  | cons p l ih =>
    obtain ⟨k₁, x⟩ := p
    by_cases h₁ : k₁ = k
    · subst h₁
      have hne : ¬(k₁ = k') := fun hk => h hk.symm
      simp [hne, ih]
    · simp [h₁, ih]

@[simp]
theorem find?_set_self (l : List (κ × α)) (k : κ) (x : α) :
    find? (set l k x) k = some x := by
  simp [set]

theorem find?_set_ne (l : List (κ × α)) (k k' : κ) (x : α) (h : k' ≠ k) :
    find? (set l k x) k' = find? l k' := by
  have hne : ¬(k = k') := fun hk => h hk.symm
  simp [set, hne, find?_eraseKey_ne l k k' h]

theorem sublist_eraseKey (l : List (κ × α)) (k : κ) :
    List.Sublist (eraseKey l k) l := by
  induction l with
  | nil => simp
  | cons p l ih =>
    obtain ⟨k₁, x⟩ := p
    by_cases h : k₁ = k
    · simpa [h] using List.Sublist.cons (k₁, x) ih
    · simpa [h] using List.Sublist.cons₂ (k₁, x) ih

theorem mem_of_mem_eraseKey {l : List (κ × α)} {k : κ} {p : κ × α}
    (h : p ∈ eraseKey l k) : p ∈ l :=
  (sublist_eraseKey l k).mem h

theorem find?_isSome_of_mem {l : List (κ × α)} {k : κ} {x : α}
    (h : (k, x) ∈ l) : (find? l k).isSome := by
  induction l with
  | nil => simp at h
  | cons p l ih =>
    obtain ⟨k₁, y⟩ := p
    rcases List.mem_cons.1 h with h₁ | h₁
    · have hk : k₁ = k := (congrArg Prod.fst h₁).symm
      simp [hk]
    · by_cases hk : k₁ = k <;> simp [hk, ih h₁]

theorem mem_of_find?_eq_some {l : List (κ × α)} {k : κ} {x : α}
    (h : find? l k = some x) : (k, x) ∈ l := by
  induction l with
  | nil => simp [find?] at h
  | cons p l ih =>
    obtain ⟨k₁, y⟩ := p
    rw [find?_cons] at h
    by_cases hk : k₁ = k
    · subst hk
      rw [if_pos rfl] at h
      injection h with h
      subst h
      exact List.mem_cons_self _ _
    · rw [if_neg hk] at h
      exact List.mem_cons_of_mem _ (ih h)

end Assoc

namespace ListSet

variable {α : Type} [DecidableEq α]

@[simp]
theorem erase_nil (a : α) : erase ([] : List α) a = [] := rfl

@[simp]
theorem erase_cons (x a : α) (l : List α) :
    erase (x :: l) a = if x = a then erase l a else x :: erase l a := rfl

@[simp]
theorem mem_insert_self (l : List α) (a : α) : a ∈ insert l a := by
  by_cases h : a ∈ l <;> simp [insert, h]

theorem mem_insert_iff (l : List α) (a b : α) :
    b ∈ insert l a ↔ b = a ∨ b ∈ l := by
  by_cases h : a ∈ l
  · simp only [insert, if_pos h]
    constructor
    · exact Or.inr
    · rintro (rfl | hb)
      · exact h
      · exact hb
  · simp [insert, h]

theorem mem_erase_iff (l : List α) (a b : α) :
    b ∈ erase l a ↔ b ∈ l ∧ b ≠ a := by
  induction l with
  | nil => simp
  | cons x l ih =>
    rw [erase_cons]
    by_cases h : x = a
    · rw [if_pos h, ih]
      subst h
      simp only [List.mem_cons]
      constructor
      · rintro ⟨hb, hne⟩
        exact ⟨Or.inr hb, hne⟩
      · rintro ⟨hb | hb, hne⟩
        · exact absurd hb hne
        · exact ⟨hb, hne⟩
    · rw [if_neg h]
      simp only [List.mem_cons, ih]
      constructor
      · rintro (rfl | ⟨hb, hne⟩)
        · exact ⟨Or.inl rfl, fun hba => h hba⟩
        · exact ⟨Or.inr hb, hne⟩
      · rintro ⟨hb | hb, hne⟩
        · exact Or.inl hb
        · exact Or.inr ⟨hb, hne⟩

@[simp]
theorem not_mem_erase_self (l : List α) (a : α) : a ∉ erase l a := by
  intro h
  exact ((mem_erase_iff l a a).1 h).2 rfl

theorem erase_erase_self (l : List α) (a : α) :
    erase (erase l a) a = erase l a := by
  induction l with
  | nil => rfl
  | cons x l ih =>
    by_cases h : x = a <;> simp [h, ih]

theorem erase_of_not_mem {l : List α} {a : α} (h : a ∉ l) :
    erase l a = l := by
  induction l with
  | nil => rfl
  | cons x l ih =>
    simp only [List.mem_cons, not_or] at h
    simp [Ne.symm h.1, ih h.2]

end ListSet

namespace ECS

/-! ### Helper lemmas about the component manager -/

theorem GetComponentArray_of_find {V : Type} {cm : ComponentManager V}
    {tid : Nat} {hdl : Option (ComponentArray V)}
    (h : Assoc.find? cm.componentArrays tid = some hdl) :
    cm.GetComponentArray tid = (hdl, cm) := by
  simp [ComponentManager.GetComponentArray, h]

/-- Inversion of a successful `AddComponent`: the type was registered, the
entity was absent, and the new state stores the extended array. -/
theorem AddComponent_ok_inv {V : Type} {cm : ComponentManager V} {tid : Nat}
    {e : Entity} {v : V} (h : (cm.AddComponent tid e v).1 = .ok ()) :
    ∃ ca : ComponentArray V,
      Assoc.find? cm.componentArrays tid = some (some ca) ∧
      Assoc.find? ca e = none ∧
      (cm.AddComponent tid e v).2 =
        ⟨Assoc.set cm.componentArrays tid (some (Assoc.set ca e v))⟩ := by
  cases hfind : Assoc.find? cm.componentArrays tid with
  | none =>
    simp [ComponentManager.AddComponent, ComponentManager.GetComponentArray,
      hfind] at h
  | some hdl =>
    cases hdl with
    | none =>
      simp [ComponentManager.AddComponent, ComponentManager.GetComponentArray,
        hfind] at h
    | some ca =>
      refine ⟨ca, rfl, ?_⟩
      cases habs : Assoc.find? ca e with
      | some w =>
        simp [ComponentManager.AddComponent, ComponentManager.GetComponentArray,
          hfind, ComponentArray.InsertData, habs] at h
      | none =>
        refine ⟨rfl, ?_⟩
        simp [ComponentManager.AddComponent, ComponentManager.GetComponentArray,
          hfind, ComponentArray.InsertData, habs]

/-! ### Claim theorems -/

/-- C1 (code defect witnessed at a concrete input): on a fresh
`ComponentManager` where type id 0 was never registered, every component
operation for that type reaches the dereference of the null handle
(undefined behaviour, not a defined `UnregisteredType` error), and the
attempt fabricates a storage entry (the null handle stored under key 0) in
the `componentArrays` map. -/
theorem unregistered_type_lookup_fabricates :
    ((⟨[]⟩ : ComponentManager Nat).AddComponent 0 7 42).1
        = .error .NullDeref ∧
    Assoc.find? ((⟨[]⟩ : ComponentManager Nat).AddComponent 0 7 42).2.1 0
        = some none ∧
    ((⟨[]⟩ : ComponentManager Nat).RemoveComponent 0 7).1
        = .error .NullDeref ∧
    Assoc.find? ((⟨[]⟩ : ComponentManager Nat).RemoveComponent 0 7).2.1 0
        = some none ∧
    ((⟨[]⟩ : ComponentManager Nat).GetComponent 0 7).1 = .error .NullDeref ∧
    Assoc.find? ((⟨[]⟩ : ComponentManager Nat).GetComponent 0 7).2.1 0
        = some none ∧
    ((⟨[]⟩ : ComponentManager Nat).HasComponent 0 7).1 = .error .NullDeref ∧
    Assoc.find? ((⟨[]⟩ : ComponentManager Nat).HasComponent 0 7).2.1 0
        = some none :=
  ⟨rfl, rfl, rfl, rfl, rfl, rfl, rfl, rfl⟩

/-- C2: when `AddComponent` has succeeded for `(tid, e)`, a second
`AddComponent` for the same pair without an intervening remove fails with
`DuplicateComponent`, leaves the manager state unchanged, and the stored
value for `(tid, e)` is still the one from the first call. -/
theorem addComponent_duplicate_fails {V : Type} (cm : ComponentManager V)
    (tid : Nat) (e : Entity) (v v' : V)
    (hok : (cm.AddComponent tid e v).1 = .ok ()) :
    ((cm.AddComponent tid e v).2.AddComponent tid e v').1
        = .error .DuplicateComponent ∧
    ((cm.AddComponent tid e v).2.AddComponent tid e v').2
        = (cm.AddComponent tid e v).2 ∧
    ((cm.AddComponent tid e v).2.GetComponent tid e).1 = .ok (some v) := by
  obtain ⟨ca, hreg, habs, hstate⟩ := AddComponent_ok_inv hok
  rw [hstate]
  refine ⟨?_, ?_, ?_⟩ <;>
    simp [ComponentManager.AddComponent, ComponentManager.GetComponent,
      ComponentManager.GetComponentArray, Assoc.find?_set_self,
      ComponentArray.InsertData, ComponentArray.GetData]

/-- C4: immediately after a successful `AddComponent tid e v`,
`GetComponent tid e` returns `v` and `HasComponent tid e` returns `true`. -/
theorem addComponent_get_has {V : Type} (cm : ComponentManager V) (tid : Nat)
    (e : Entity) (v : V) (hok : (cm.AddComponent tid e v).1 = .ok ()) :
    ((cm.AddComponent tid e v).2.GetComponent tid e).1 = .ok (some v) ∧
    ((cm.AddComponent tid e v).2.HasComponent tid e).1 = .ok true := by
  obtain ⟨ca, hreg, habs, hstate⟩ := AddComponent_ok_inv hok
  rw [hstate]
  constructor <;>
    simp [ComponentManager.GetComponent, ComponentManager.HasComponent,
      ComponentManager.GetComponentArray, Assoc.find?_set_self,
      ComponentArray.GetData, ComponentArray.HasComponent]

/-- C5: for a registered type, `RemoveComponent` fails with
`MissingComponent` exactly when the entity holds no component of that type
(leaving the state unchanged), and after a successful removal
`HasComponent` returns `false`. -/
theorem removeComponent_missing_iff {V : Type} (cm : ComponentManager V)
    (tid : Nat) (e : Entity) (ca : ComponentArray V)
    (hreg : Assoc.find? cm.componentArrays tid = some (some ca)) :
    ((cm.RemoveComponent tid e).1 = .error .MissingComponent ↔
        Assoc.find? ca e = none) ∧
    (Assoc.find? ca e = none → (cm.RemoveComponent tid e).2 = cm) ∧
    ((cm.RemoveComponent tid e).1 = .ok () →
        ((cm.RemoveComponent tid e).2.HasComponent tid e).1 = .ok false) := by
  cases habs : Assoc.find? ca e with
  | none =>
    refine ⟨?_, ?_, ?_⟩ <;>
      simp [ComponentManager.RemoveComponent, ComponentManager.HasComponent,
        ComponentManager.GetComponentArray, hreg,
        ComponentArray.RemoveData, habs]
  | some w =>
    refine ⟨?_, ?_, ?_⟩ <;>
      simp [ComponentManager.RemoveComponent, ComponentManager.HasComponent,
        ComponentManager.GetComponentArray, hreg, Assoc.find?_set_self,
        ComponentArray.RemoveData, ComponentArray.HasComponent, habs]

/-- C9: for a registered type and an entity holding no component of it,
`GetComponent` returns the defined absence value (`none`, the source's
`nullptr`) rather than an error or a crash, `HasComponent` returns `false`,
and neither call changes the state. -/
theorem get_absent_is_normal_negative {V : Type} (cm : ComponentManager V)
    (tid : Nat) (e : Entity) (ca : ComponentArray V)
    (hreg : Assoc.find? cm.componentArrays tid = some (some ca))
    (habs : Assoc.find? ca e = none) :
    (cm.GetComponent tid e).1 = .ok none ∧
    (cm.HasComponent tid e).1 = .ok false ∧
    (cm.GetComponent tid e).2 = cm ∧
    (cm.HasComponent tid e).2 = cm := by
  refine ⟨?_, ?_, ?_, ?_⟩ <;>
    simp [ComponentManager.GetComponent, ComponentManager.HasComponent,
      ComponentManager.GetComponentArray, hreg, ComponentArray.GetData,
      ComponentArray.HasComponent, habs]

/-- C10: calling `RegisterComponent` for an already-registered type replaces
the stored array with a fresh empty one: afterwards the handle for `tid` is
an empty array and every entity's component of that type is gone. -/
theorem reregister_replaces_array {V : Type} (cm : ComponentManager V)
    (tid : Nat) (ca : ComponentArray V) (e : Entity) (v : V)
    (_hreg : Assoc.find? cm.componentArrays tid = some (some ca))
    (_hv : Assoc.find? ca e = some v) :
    Assoc.find? (cm.RegisterComponent tid).componentArrays tid
        = some (some ([] : ComponentArray V)) ∧
    (∀ e' : Entity,
      ((cm.RegisterComponent tid).HasComponent tid e').1 = .ok false ∧
      ((cm.RegisterComponent tid).GetComponent tid e').1 = .ok none) := by
  constructor
  · simp [ComponentManager.RegisterComponent, Assoc.find?_set_self]
  · intro e'
    constructor <;>
      simp [ComponentManager.RegisterComponent, ComponentManager.HasComponent,
        ComponentManager.GetComponent, ComponentManager.GetComponentArray,
        Assoc.find?_set_self, ComponentArray.HasComponent,
        ComponentArray.GetData]

/-! ### Witnesses -/

/-- Witness for C2 at a concrete input. -/
theorem addComponent_duplicate_fails_witness :
    (((⟨[(0, some ([] : ComponentArray Nat))]⟩ : ComponentManager Nat).AddComponent
        0 3 11).1 = .ok ()) ∧
    ((((⟨[(0, some ([] : ComponentArray Nat))]⟩ : ComponentManager Nat).AddComponent
        0 3 11).2.AddComponent 0 3 12).1 = .error .DuplicateComponent ∧
     (((⟨[(0, some ([] : ComponentArray Nat))]⟩ : ComponentManager Nat).AddComponent
        0 3 11).2.AddComponent 0 3 12).2
        = ((⟨[(0, some ([] : ComponentArray Nat))]⟩ : ComponentManager Nat).AddComponent
        0 3 11).2 ∧
     (((⟨[(0, some ([] : ComponentArray Nat))]⟩ : ComponentManager Nat).AddComponent
        0 3 11).2.GetComponent 0 3).1 = .ok (some 11)) :=
  ⟨rfl, addComponent_duplicate_fails _ 0 3 11 12 rfl⟩

/-- Witness for C4 at a concrete input. -/
theorem addComponent_get_has_witness :
    (((⟨[(0, some ([] : ComponentArray Nat))]⟩ : ComponentManager Nat).AddComponent
        0 3 11).1 = .ok ()) ∧
    ((((⟨[(0, some ([] : ComponentArray Nat))]⟩ : ComponentManager Nat).AddComponent
        0 3 11).2.GetComponent 0 3).1 = .ok (some 11) ∧
     (((⟨[(0, some ([] : ComponentArray Nat))]⟩ : ComponentManager Nat).AddComponent
        0 3 11).2.HasComponent 0 3).1 = .ok true) :=
  ⟨rfl, addComponent_get_has _ 0 3 11 rfl⟩

/-- Witness for C5 at a concrete input. -/
theorem removeComponent_missing_iff_witness :
    (Assoc.find?
        (⟨[(0, some ([(4, 9)] : ComponentArray Nat))]⟩ :
          ComponentManager Nat).componentArrays 0
        = some (some ([(4, 9)] : ComponentArray Nat))) ∧
    (((⟨[(0, some ([(4, 9)] : ComponentArray Nat))]⟩ :
        ComponentManager Nat).RemoveComponent 0 4).1 = .error .MissingComponent ↔
      Assoc.find? ([(4, 9)] : ComponentArray Nat) 4 = none) :=
  ⟨rfl, (removeComponent_missing_iff
      (⟨[(0, some ([(4, 9)] : ComponentArray Nat))]⟩ : ComponentManager Nat)
      0 4 ([(4, 9)] : ComponentArray Nat) rfl).1⟩

/-- Witness for C9 at a concrete input. -/
theorem get_absent_is_normal_negative_witness :
    (Assoc.find?
        (⟨[(0, some ([] : ComponentArray Nat))]⟩ :
          ComponentManager Nat).componentArrays 0
        = some (some ([] : ComponentArray Nat))) ∧
    (Assoc.find? ([] : ComponentArray Nat) 5 = none) ∧
    (((⟨[(0, some ([] : ComponentArray Nat))]⟩ :
        ComponentManager Nat).GetComponent 0 5).1 = .ok none) ∧
    (((⟨[(0, some ([] : ComponentArray Nat))]⟩ :
        ComponentManager Nat).HasComponent 0 5).1 = .ok false) :=
  ⟨rfl, rfl,
    (get_absent_is_normal_negative
      (⟨[(0, some ([] : ComponentArray Nat))]⟩ : ComponentManager Nat)
      0 5 ([] : ComponentArray Nat) rfl rfl).1,
    (get_absent_is_normal_negative
      (⟨[(0, some ([] : ComponentArray Nat))]⟩ : ComponentManager Nat)
      0 5 ([] : ComponentArray Nat) rfl rfl).2.1⟩

/-- Witness for C10 at a concrete input. -/
theorem reregister_replaces_array_witness :
    (Assoc.find?
        (⟨[(0, some ([(4, 9)] : ComponentArray Nat))]⟩ :
          ComponentManager Nat).componentArrays 0
        = some (some ([(4, 9)] : ComponentArray Nat))) ∧
    (Assoc.find? ([(4, 9)] : ComponentArray Nat) 4 = some 9) ∧
    (Assoc.find?
        ((⟨[(0, some ([(4, 9)] : ComponentArray Nat))]⟩ :
          ComponentManager Nat).RegisterComponent 0).componentArrays 0
        = some (some ([] : ComponentArray Nat))) ∧
    (((⟨[(0, some ([(4, 9)] : ComponentArray Nat))]⟩ :
        ComponentManager Nat).RegisterComponent 0).HasComponent 0 4).1
        = .ok false :=
  ⟨rfl, rfl,
    (reregister_replaces_array
      (⟨[(0, some ([(4, 9)] : ComponentArray Nat))]⟩ : ComponentManager Nat)
      0 ([(4, 9)] : ComponentArray Nat) 4 9 rfl rfl).1,
    ((reregister_replaces_array
      (⟨[(0, some ([(4, 9)] : ComponentArray Nat))]⟩ : ComponentManager Nat)
      0 ([(4, 9)] : ComponentArray Nat) 4 9 rfl rfl).2 4).1⟩

/-! ### Entity-manager lemmas -/

theorem emAfterCreates_nextEntity (n : Nat) (h : n ≤ MAX_ENTITIES) :
    (emAfterCreates n).nextEntity = n := by
  induction n with
  | zero => rfl
  | succ n ih =>
    have hlt : n < MAX_ENTITIES := Nat.lt_of_succ_le h
    have hn := ih (Nat.le_of_succ_le h)
    simp [emAfterCreates, emCreateStep, EntityManager.CreateEntity, hn, hlt]

theorem foldl_destroy_nextEntity (em : EntityManager) (es : List Entity) :
    (es.foldl EntityManager.DestroyEntity em).nextEntity = em.nextEntity := by
  induction es generalizing em with
  | nil => rfl
  | cons e es ih => simp [List.foldl_cons, ih, EntityManager.DestroyEntity]

theorem emCreateStep_inv {em : EntityManager} (h : em.Inv) :
    (emCreateStep em).Inv := by
  rw [emCreateStep, EntityManager.CreateEntity]
  by_cases hlt : em.nextEntity < MAX_ENTITIES
  · rw [if_pos hlt]
    intro e he
    rcases (ListSet.mem_insert_iff _ _ _).1 he with rfl | he
    · exact Nat.lt_succ_self _
    · exact Nat.lt_succ_of_lt (h e he)
  · rw [if_neg hlt]
    exact h

theorem emStep_inv {em : EntityManager} (op : EMOp) (h : em.Inv) :
    (emStep em op).Inv := by
  cases op with
  | create => exact emCreateStep_inv h
  | destroy e' =>
    intro e he
    exact h e ((ListSet.mem_erase_iff _ _ _).1 he).1

theorem emRunFrom_inv {em : EntityManager} (ops : List EMOp) (h : em.Inv) :
    (emRunFrom em ops).Inv := by
  induction ops generalizing em with
  | nil => exact h
  | cons op ops ih => exact ih (emStep_inv op h)

theorem emRun_inv (ops : List EMOp) : (emRun ops).Inv :=
  emRunFrom_inv ops (fun e he => absurd he (List.not_mem_nil e))

theorem emStep_nextEntity_mono (em : EntityManager) (op : EMOp) :
    em.nextEntity ≤ (emStep em op).nextEntity := by
  cases op with
  | create =>
    rw [emStep, emCreateStep, EntityManager.CreateEntity]
    by_cases hlt : em.nextEntity < MAX_ENTITIES
    · rw [if_pos hlt]
      exact Nat.le_succ _
    · rw [if_neg hlt]
  | destroy e => exact Nat.le_refl _

/-! ### Entity-manager claim theorems -/

/-- C3: starting from a fresh `EntityManager`, the `n`-th `CreateEntity`
call (`n < MAX_ENTITIES`, zero-based) succeeds and returns identifier `n`;
the call after `MAX_ENTITIES` successes fails with `CapacityExceeded`; and
no sequence of `DestroyEntity` calls restores capacity. -/
theorem createEntity_capacity (n : Nat) (hn : n < MAX_ENTITIES)
    (es : List Entity) :
    (emAfterCreates n).CreateEntity = .ok (n, emAfterCreates (n + 1)) ∧
    (emAfterCreates MAX_ENTITIES).CreateEntity = .error .CapacityExceeded ∧
    (es.foldl EntityManager.DestroyEntity
        (emAfterCreates MAX_ENTITIES)).CreateEntity
      = .error .CapacityExceeded := by
  have h1 : (emAfterCreates n).nextEntity = n :=
    emAfterCreates_nextEntity n (Nat.le_of_lt hn)
  have h2 : (emAfterCreates MAX_ENTITIES).nextEntity = MAX_ENTITIES :=
    emAfterCreates_nextEntity MAX_ENTITIES (Nat.le_refl _)
  refine ⟨?_, ?_, ?_⟩
  · conv_rhs => rw [emAfterCreates]
    rw [emCreateStep, EntityManager.CreateEntity, h1, if_pos hn]
  · rw [EntityManager.CreateEntity, h2, if_neg (Nat.lt_irrefl _)]
  · rw [EntityManager.CreateEntity, foldl_destroy_nextEntity, h2,
      if_neg (Nat.lt_irrefl _)]

/-- Witness for C3 at a concrete input. -/
theorem createEntity_capacity_witness :
    (3 < MAX_ENTITIES) ∧
    ((emAfterCreates 3).CreateEntity = .ok (3, emAfterCreates 4) ∧
     (emAfterCreates MAX_ENTITIES).CreateEntity = .error .CapacityExceeded ∧
     ([0, 1].foldl EntityManager.DestroyEntity
        (emAfterCreates MAX_ENTITIES)).CreateEntity
       = .error .CapacityExceeded) :=
  ⟨by decide, createEntity_capacity 3 (by decide) [0, 1]⟩

/-- C7: `DestroyEntity e` only removes `e` from the alive set: the
next-identifier counter is unchanged, `e` is no longer alive, every other
entity's alive status is unchanged, the call is idempotent and a no-op when
`e` is not alive, and the coordinator's `DestroyEntity` leaves the component
manager (hence every component array) untouched. -/
theorem destroyEntity_only_removes_from_alive {V : Type} (em : EntityManager)
    (cmgr : ComponentManager V) (e e' : Entity) (hne : e' ≠ e) :
    (em.DestroyEntity e).nextEntity = em.nextEntity ∧
    (em.DestroyEntity e).IsAlive e = false ∧
    (em.DestroyEntity e).IsAlive e' = em.IsAlive e' ∧
    (em.DestroyEntity e).DestroyEntity e = em.DestroyEntity e ∧
    (em.IsAlive e = false → em.DestroyEntity e = em) ∧
    (Coordinator.DestroyEntity ⟨em, cmgr⟩ e).componentManager = cmgr := by
  refine ⟨rfl, ?_, ?_, ?_, ?_, rfl⟩
  · simp [EntityManager.DestroyEntity, EntityManager.IsAlive]
  · rw [EntityManager.DestroyEntity, EntityManager.IsAlive,
      EntityManager.IsAlive]
    rw [decide_eq_decide]
    simp [ListSet.mem_erase_iff, hne]
  · simp [EntityManager.DestroyEntity, ListSet.erase_erase_self]
  · intro h
    have hmem : e ∉ em.livingEntities := by
      simpa [EntityManager.IsAlive] using h
    cases em with
    | mk nx lv =>
      simp only [EntityManager.DestroyEntity]
      rw [ListSet.erase_of_not_mem hmem]

/-- Witness for C7 at a concrete input. -/
theorem destroyEntity_only_removes_from_alive_witness :
    ((1 : Entity) ≠ 0) ∧
    ((⟨2, [0, 1]⟩ : EntityManager).DestroyEntity 0).IsAlive 0 = false ∧
    ((⟨2, [0, 1]⟩ : EntityManager).DestroyEntity 0).IsAlive 1
      = (⟨2, [0, 1]⟩ : EntityManager).IsAlive 1 ∧
    ((⟨2, [0, 1]⟩ : EntityManager).DestroyEntity 0).nextEntity = 2 ∧
    ((⟨2, [1]⟩ : EntityManager).IsAlive 0 = false) ∧
    ((⟨2, [1]⟩ : EntityManager).DestroyEntity 0 = ⟨2, [1]⟩) ∧
    (Coordinator.DestroyEntity
        (⟨⟨2, [0, 1]⟩, ⟨[]⟩⟩ : Coordinator Nat) 0).componentManager
      = (⟨[]⟩ : ComponentManager Nat) :=
  ⟨by decide,
   (destroyEntity_only_removes_from_alive (⟨2, [0, 1]⟩ : EntityManager)
     (⟨[]⟩ : ComponentManager Nat) 0 1 (by decide)).2.1,
   (destroyEntity_only_removes_from_alive (⟨2, [0, 1]⟩ : EntityManager)
     (⟨[]⟩ : ComponentManager Nat) 0 1 (by decide)).2.2.1,
   (destroyEntity_only_removes_from_alive (⟨2, [0, 1]⟩ : EntityManager)
     (⟨[]⟩ : ComponentManager Nat) 0 1 (by decide)).1,
   by decide,
   (destroyEntity_only_removes_from_alive (⟨2, [1]⟩ : EntityManager)
     (⟨[]⟩ : ComponentManager Nat) 0 1 (by decide)).2.2.2.2.1 (by decide),
   (destroyEntity_only_removes_from_alive (⟨2, [0, 1]⟩ : EntityManager)
     (⟨[]⟩ : ComponentManager Nat) 0 1 (by decide)).2.2.2.2.2⟩

/-- C8: over every operation sequence from the fresh `EntityManager`: the
next-identifier counter never decreases at a step, the alive set is a subset
of `[0, nextEntity)`, an entity returned by a successful `CreateEntity` is
alive in the returned state, an entity is not alive right after
`DestroyEntity` on it, and an identifier never returned by `CreateEntity`
(one at or above the counter) is not alive. -/
theorem entityManager_invariants (ops : List EMOp) (op : EMOp) (e e' : Entity)
    (em' : EntityManager) :
    (emRun ops).nextEntity ≤ (emStep (emRun ops) op).nextEntity ∧
    ((emRun ops).IsAlive e = true → e < (emRun ops).nextEntity) ∧
    ((emRun ops).CreateEntity = .ok (e', em') → em'.IsAlive e' = true) ∧
    ((emRun ops).DestroyEntity e).IsAlive e = false ∧
    ((emRun ops).nextEntity ≤ e → (emRun ops).IsAlive e = false) := by
  refine ⟨emStep_nextEntity_mono _ op, ?_, ?_, ?_, ?_⟩
  · intro h
    exact emRun_inv ops e (by simpa [EntityManager.IsAlive] using h)
  · intro h
    rw [EntityManager.CreateEntity] at h
    by_cases hlt : (emRun ops).nextEntity < MAX_ENTITIES
    · rw [if_pos hlt] at h
      injection h with h
      obtain ⟨h1, h2⟩ := Prod.mk.injEq .. ▸ h
      subst h1
      subst h2
      simp [EntityManager.IsAlive]
    · rw [if_neg hlt] at h
      exact absurd h (by simp)
  · simp [EntityManager.DestroyEntity, EntityManager.IsAlive]
  · intro hge
    by_cases hmem : e ∈ (emRun ops).livingEntities
    · exact absurd (emRun_inv ops e hmem) (Nat.not_lt.2 hge)
    · simp [EntityManager.IsAlive, hmem]

/-- Witness for C8 at concrete inputs. -/
theorem entityManager_invariants_witness :
    ((emRun [EMOp.create]).nextEntity
        ≤ (emStep (emRun [EMOp.create]) EMOp.create).nextEntity) ∧
    ((emRun [EMOp.create]).IsAlive 0 = true ∧
      0 < (emRun [EMOp.create]).nextEntity) ∧
    ((emRun []).CreateEntity = .ok (0, (⟨1, [0]⟩ : EntityManager)) ∧
      (⟨1, [0]⟩ : EntityManager).IsAlive 0 = true) ∧
    ((emRun [EMOp.create]).DestroyEntity 0).IsAlive 0 = false ∧
    ((emRun [EMOp.create]).nextEntity ≤ 3 ∧
      (emRun [EMOp.create]).IsAlive 3 = false) :=
  ⟨(entityManager_invariants [EMOp.create] EMOp.create 0 0 emFresh).1,
   ⟨by decide,
    (entityManager_invariants [EMOp.create] EMOp.create 0 0 emFresh).2.1
      (by decide)⟩,
   ⟨rfl,
    (entityManager_invariants [] EMOp.create 0 0
      (⟨1, [0]⟩ : EntityManager)).2.2.1 rfl⟩,
   (entityManager_invariants [EMOp.create] EMOp.create 0 0 emFresh).2.2.2.1,
   ⟨by decide,
    (entityManager_invariants [EMOp.create] EMOp.create 3 0 emFresh).2.2.2.2
      (by decide)⟩⟩

/-! ### Type-registry lemmas -/

theorem WF_regFresh : regFresh.WF :=
  ⟨List.Pairwise.nil, by simp [regFresh]⟩

theorem WF_GetID {r : TypeRegistry} (t : String) (h : r.WF) :
    (r.GetID t).2.WF := by
  rw [TypeRegistry.GetID]
  cases hfind : Assoc.find? r.ids t with
  | some i => exact h
  | none =>
    obtain ⟨hpw, hbd⟩ := h
    constructor
    · rw [Assoc.set]
      refine List.Pairwise.cons ?_ (hpw.sublist (Assoc.sublist_eraseKey _ _))
      intro q hq
      obtain ⟨q₁, q₂⟩ := q
      have hqmem : (q₁, q₂) ∈ r.ids := Assoc.mem_of_mem_eraseKey hq
      constructor
      · intro hkey
        have hkey' : t = q₁ := hkey
        have hsome : (Assoc.find? r.ids t).isSome :=
          Assoc.find?_isSome_of_mem (hkey'.symm ▸ hqmem)
        rw [hfind] at hsome
        exact absurd hsome (by simp)
      · exact Ne.symm (Nat.ne_of_lt (hbd _ hqmem))
    · intro p hp
      rw [Assoc.set] at hp
      rcases List.mem_cons.1 hp with rfl | hp
      · exact Nat.lt_succ_self _
      · exact Nat.lt_succ_of_lt (hbd p (Assoc.mem_of_mem_eraseKey hp))

theorem WF_regRunFrom {r : TypeRegistry} (ts : List String) (h : r.WF) :
    (regRunFrom r ts).WF := by
  induction ts generalizing r with
  | nil => exact h
  | cons t ts ih => exact ih (WF_GetID t h)

theorem WF_regRun (ts : List String) : (regRun ts).WF :=
  WF_regRunFrom ts WF_regFresh

theorem find?_GetID_stable {r : TypeRegistry} {t : String} {i : Nat}
    (h : Assoc.find? r.ids t = some i) (u : String) :
    Assoc.find? ((r.GetID u).2).ids t = some i := by
  rw [TypeRegistry.GetID]
  cases hfind : Assoc.find? r.ids u with
  | some j => exact h
  | none =>
    have hne : t ≠ u := by
      intro hEq
      rw [hEq, hfind] at h
      exact absurd h (by simp)
    rw [Assoc.set, Assoc.find?_cons, if_neg (fun hk => hne hk.symm),
      Assoc.find?_eraseKey_ne _ _ _ hne]
    exact h

theorem find?_regRunFrom_stable {r : TypeRegistry} {t : String} {i : Nat}
    (h : Assoc.find? r.ids t = some i) (us : List String) :
    Assoc.find? (regRunFrom r us).ids t = some i := by
  induction us generalizing r with
  | nil => exact h
  | cons u us ih => exact ih (find?_GetID_stable h u)

/-! ### Type-registry claim theorem -/

/-- C6: the registry starts at 0; repeated `GetID` calls for the same type
return the same identifier (and the identifier stays stable under any later
call sequence); identifiers of distinct types differ; the first call for a
new type hands out exactly the current counter value, advances the counter
by one, and never reuses an identifier already handed out; a repeated call
advances nothing. -/
theorem typeRegistry_identifier_assignment (ts us : List String)
    (t u : String) (i j : Nat) :
    regFresh.nextID = 0 ∧
    (((regRun ts).GetID t).2.GetID t).1 = ((regRun ts).GetID t).1 ∧
    (Assoc.find? (regRun ts).ids t = some i →
      Assoc.find? (regRunFrom (regRun ts) us).ids t = some i) ∧
    (t ≠ u → Assoc.find? (regRun ts).ids t = some i →
      Assoc.find? (regRun ts).ids u = some j → i ≠ j) ∧
    (Assoc.find? (regRun ts).ids t = none →
      ((regRun ts).GetID t).1 = (regRun ts).nextID ∧
      ((regRun ts).GetID t).2.nextID = (regRun ts).nextID + 1 ∧
      ∀ p ∈ (regRun ts).ids, p.2 ≠ (regRun ts).nextID) ∧
    (Assoc.find? (regRun ts).ids t = some i →
      ((regRun ts).GetID t).1 = i ∧ ((regRun ts).GetID t).2 = regRun ts) := by
  refine ⟨rfl, ?_, ?_, ?_, ?_, ?_⟩
  · cases hfind : Assoc.find? (regRun ts).ids t with
    | some i => simp [TypeRegistry.GetID, hfind]
    | none => simp [TypeRegistry.GetID, hfind, Assoc.find?_set_self]
  · intro h
    exact find?_regRunFrom_stable h us
  · intro htu h₁ h₂
    have hwf := WF_regRun ts
    have hm₁ := Assoc.mem_of_find?_eq_some h₁
    have hm₂ := Assoc.mem_of_find?_eq_some h₂
    have hsym : Symmetric
        (fun p q : String × Nat => p.1 ≠ q.1 ∧ p.2 ≠ q.2) :=
      fun _ _ hpq => ⟨Ne.symm hpq.1, Ne.symm hpq.2⟩
    have hne : ((t, i) : String × Nat) ≠ (u, j) :=
      fun hEq => htu (congrArg Prod.fst hEq)
    exact (hwf.1.forall hsym hm₁ hm₂ hne).2
  · intro hfind
    refine ⟨?_, ?_, ?_⟩
    · simp [TypeRegistry.GetID, hfind]
    · simp [TypeRegistry.GetID, hfind]
    · intro p hp
      exact Ne.symm (Nat.ne_of_gt ((WF_regRun ts).2 p hp))
  · intro hfind
    constructor <;> simp [TypeRegistry.GetID, hfind]

/-- Witness for C6 at concrete inputs. -/
theorem typeRegistry_identifier_assignment_witness :
    regFresh.nextID = 0 ∧
    ("A" ≠ "B") ∧
    (Assoc.find? (regRun ["A", "B"]).ids "A" = some 0) ∧
    (Assoc.find? (regRun ["A", "B"]).ids "B" = some 1) ∧
    ((0 : Nat) ≠ 1) ∧
    Assoc.find? (regRunFrom (regRun ["A", "B"]) ["C"]).ids "A" = some 0 ∧
    (((regRun ["A", "B"]).GetID "A").2.GetID "A").1
      = ((regRun ["A", "B"]).GetID "A").1 :=
  ⟨rfl, by decide, by decide, by decide,
   (typeRegistry_identifier_assignment ["A", "B"] ["C"] "A" "B" 0 1).2.2.2.1
     (by decide) (by decide) (by decide),
   (typeRegistry_identifier_assignment ["A", "B"] ["C"] "A" "B" 0 1).2.2.1
     (by decide),
   (typeRegistry_identifier_assignment ["A", "B"] ["C"] "A" "B" 0 1).2.1⟩

end ECS

end EU
